import Mathlib

/-!
Verification of the System-module lowering pass
(`src/compiler/transformers/module/system.ts`).

The development shallowly embeds the transformer: the output tree is a small
JavaScript AST (`Expr`/`Stmt`) mirroring the factory calls the source makes,
the input is a model of the TypeScript source-file nodes the pass consumes,
and the per-file mutable variables of the transformer closure are threaded
explicitly as a `TransformState` record.  Services the pass consumes from
outside this repository slice (emit resolver, lexical environment,
unique-name generation, prologue copying, module-info collection) are
modelled explicitly and marked as such in their doc comments.
-/

namespace SystemModule

/-- Binary operator kinds appearing in the expressions this pass builds. -/
inductive BinaryOp where
  | assign
  | add
  | subtract
  | logicalAnd
  | strictInequality
deriving Repr, DecidableEq

/-- The two update operators (`++` and `--`). -/
inductive IncDecOp where
  | plusPlus
  | minusMinus
deriving Repr, DecidableEq

mutual
/-- Output JavaScript expressions, mirroring the factory constructors the
transformer calls (`createCall`, `createPropertyAccess`, `createLiteral`,
`createObjectLiteral`, `createFunctionExpression`, ...). -/
inductive Expr where
  | ident (name : String)
  | strLit (value : String)
  | numLit (value : Int)
  | boolLit (value : Bool)
  | binary (op : BinaryOp) (left right : Expr)
  | logicalNot (operand : Expr)
  | prefixUnary (op : IncDecOp) (operand : Expr)
  | postfixUnary (operand : Expr) (op : IncDecOp)
  | call (callee : Expr) (args : List Expr)
  | propertyAccess (object : Expr) (name : String)
  | elementAccess (object : Expr) (index : Expr)
  | objectLit (properties : List (String × Expr))
  | arrayLit (elements : List Expr)
  | functionExpr (parameters : List String) (body : List Stmt)

/-- Output JavaScript statements built by the transformer. -/
inductive Stmt where
  | expressionStatement (expression : Expr)
  | variableStatement (declarations : List (String × Option Expr))
  | functionDeclaration (name : String) (parameters : List String) (body : List Stmt)
  | returnStatement (expression : Expr)
  | forInStatement (variableName : String) (object : Expr) (body : List Stmt)
  | ifStatement (condition : Expr) (thenStatement : Stmt)
end

/-- Factory helper `createAssignment`. -/
def createAssignment (left right : Expr) : Expr := .binary .assign left right

/-- Factory helper `createAdd`. -/
def createAdd (left right : Expr) : Expr := .binary .add left right

/-- Factory helper `createSubtract`. -/
def createSubtract (left right : Expr) : Expr := .binary .subtract left right

/-- Factory helper `createLogicalAnd`. -/
def createLogicalAnd (left right : Expr) : Expr := .binary .logicalAnd left right

/-- Factory helper `createStrictInequality`. -/
def createStrictInequality (left right : Expr) : Expr := .binary .strictInequality left right

/-- Factory helper `createLogicalNot`. -/
def createLogicalNot (operand : Expr) : Expr := .logicalNot operand

/-- Utility `createHasOwnProperty(object, key)`: builds `object.hasOwnProperty(key)`. -/
def createHasOwnProperty (object : Expr) (key : Expr) : Expr :=
  .call (.propertyAccess object "hasOwnProperty") [key]

/-- Modelled from the spec: the lexical/emit context service's unique-name
generation (`createUniqueName`), "collision-free, stable per logical purpose
within a file"; the generator itself is outside this repository slice.  We
model it as suffixing the requested base name, which is exactly the shape the
real generator produces on first request of a base name. -/
def createUniqueName (text : String) : String := text ++ "_1"

/-- Modifiers that matter to this pass (`ModifierFlags.Export` and
`ModifierFlags.Default`). -/
inductive Modifier where
  | exportModifier
  | defaultModifier
deriving Repr, DecidableEq

/-- An `ExportSpecifier` node: `name` (the exported name) and the optional
`propertyName` (the local name in `export { local as name }`). -/
structure ExportSpecifierNode where
  name : String
  propertyName : Option String
deriving Repr, DecidableEq

/-- The parts of an `ImportClause` node this pass inspects: the default-import
local name (`importClause.name`) and the namespace-import local name
(`import * as ns`). -/
structure ImportClauseNode where
  defaultName : Option String
  namespaceName : Option String
deriving Repr, DecidableEq

/-- One external import/export construct, as collected by the module-info
scan: a plain `import` declaration, an `import ... = require(...)`, or an
`export ... from "..."`.  `generatedName` models the emit context's stable
generated name for the node (`getGeneratedNameForNode`). -/
inductive ExternalEntry where
  | importDeclaration (moduleSpecifier : String) (importClause : Option ImportClauseNode)
      (generatedName : String)
  | importEqualsDeclaration (name : String) (moduleSpecifier : String)
  | exportDeclaration (exportClause : Option (List ExportSpecifierNode))
      (moduleSpecifier : String) (generatedName : String)
deriving Repr, DecidableEq

/-- An `ExportAssignment` node: either `export = expr` (`isExportEquals`) or
`export default expr`. -/
structure ExportAssignmentNode where
  isExportEquals : Bool
  expression : Expr

/-- A `FunctionDeclaration` node as this pass sees it.  `generatedName`
models `getGeneratedNameForNode` for the (possibly unnamed) declaration. -/
structure FunctionDeclarationNode where
  modifiers : List Modifier
  name : Option String
  generatedName : String
  parameters : List String
  body : List Stmt

/-- Source `hasModifier(node, flags)`: whether the declaration carries the given
modifier.  Models the repository-wide helper (outside this slice), which
computes the flags from the node's `modifiers` array. -/
def hasModifier (modifiers : List Modifier) (m : Modifier) : Bool :=
  modifiers.contains m

/-- Top-level source statements of the file being lowered, restricted to the
forms this pass dispatches on; every other statement kind flows through the
`default:` branches unchanged and is modelled by `statement`. -/
inductive SourceStmt where
  | prologueDirective (text : String)
  | importDeclaration (moduleSpecifier : String) (importClause : Option ImportClauseNode)
      (generatedName : String)
  | importEqualsDeclaration (name : String) (moduleSpecifier : String)
  | exportDeclaration (exportClause : Option (List ExportSpecifierNode))
      (moduleSpecifier : Option String) (generatedName : String)
  | exportAssignment (node : ExportAssignmentNode)
  | functionDeclaration (fd : FunctionDeclarationNode)
  | statement (s : Stmt)

/-- A `SourceFile` with the fields this pass reads. -/
structure SourceFile where
  statements : List SourceStmt
  moduleName : Option String
  renamedDependencies : List (String × String)
  isExternalModule : Bool

/-- The kind of container `getReferencedExportContainer` can report. -/
inductive ContainerKind where
  | sourceFile
  | other
deriving Repr, DecidableEq

/-- The emit-resolver service consumed by the pass (external collaborator);
each field models the corresponding resolver query on the node kinds this
pass passes to it. -/
structure Resolver where
  getReferencedExportContainer : String → Option ContainerKind
  getReferencedValueDeclaration : String → Bool
  isValueAliasExportAssignment : ExportAssignmentNode → Bool
  isValueAliasExportSpecifier : ExportSpecifierNode → Bool

/-- The per-file mutable variables of the transformer closure
(`currentSourceFile` .. `exportedFunctionDeclarations`, source lines 29-37). -/
structure TransformState where
  currentSourceFile : Option SourceFile := none
  externalImports : Option (List ExternalEntry) := none
  exportSpecifiers : Option (List (String × List ExportSpecifierNode)) := none
  exportEquals : Option ExportAssignmentNode := none
  hasExportStars : Bool := false
  exportFunctionForFile : Option String := none
  contextObjectForFile : Option String := none
  exportedLocalNames : Option (List String) := none
  exportedFunctionDeclarations : Option (List Stmt) := none

/-- Source `getExternalModuleName`: the module-specifier text of an external entry. -/
def getExternalModuleName : ExternalEntry → String
  | .importDeclaration moduleSpecifier _ _ => moduleSpecifier
  | .importEqualsDeclaration _ moduleSpecifier => moduleSpecifier
  | .exportDeclaration _ moduleSpecifier _ => moduleSpecifier

/-- Source `tryRenameExternalModule`: look up an alternative name for a module
specifier in the source file's `renamedDependencies` table. -/
def tryRenameExternalModule (renamedDependencies : List (String × String))
    (moduleName : String) : Option String :=
  renamedDependencies.lookup moduleName

/-- Source `getExternalModuleNameLiteral`: the resolved (post-rename) specifier text
for an external entry. -/
def getExternalModuleNameLiteral (renamedDependencies : List (String × String))
    (entry : ExternalEntry) : String :=
  let moduleName := getExternalModuleName entry
  (tryRenameExternalModule renamedDependencies moduleName).getD moduleName

/-- One dependency group: the canonical specifier text plus the external
entries sharing it. -/
structure DependencyGroup where
  name : String
  externalImports : List ExternalEntry
deriving Repr, DecidableEq

/-- Appends an entry to the (unique) existing group carrying the given
specifier text; models `dependencyGroups[groupIndices[text]].externalImports.push(...)`. -/
def addToGroup (text : String) (entry : ExternalEntry) :
    List DependencyGroup → List DependencyGroup
  | [] => []
  | g :: gs =>
    if g.name = text then
      { g with externalImports := g.externalImports ++ [entry] } :: gs
    else
      g :: addToGroup text entry gs

/-- The loop of `collectDependencyGroups`: `groupIndices` is represented by
the names already present in the accumulated group list (the map's keys are
exactly those names, each mapped to that group's index). -/
def collectDependencyGroupsAux (renamedDependencies : List (String × String)) :
    List ExternalEntry → List DependencyGroup → List DependencyGroup
  | [], dependencyGroups => dependencyGroups
  | externalImport :: rest, dependencyGroups =>
    let text := getExternalModuleNameLiteral renamedDependencies externalImport
    if text ∈ dependencyGroups.map DependencyGroup.name then
      collectDependencyGroupsAux renamedDependencies rest
        (addToGroup text externalImport dependencyGroups)
    else
      collectDependencyGroupsAux renamedDependencies rest
        (dependencyGroups ++ [{ name := text, externalImports := [externalImport] }])

/-- Source `collectDependencyGroups`: deduplicates/groups the dependency list by the
(possibly renamed) dependency name. -/
def collectDependencyGroups (renamedDependencies : List (String × String))
    (externalImports : List ExternalEntry) : List DependencyGroup :=
  collectDependencyGroupsAux renamedDependencies externalImports []

/-- First-occurrence deduplication of a list of texts, with an accumulator of
texts already seen (in order). -/
def firstOccurrencesAux : List String → List String → List String
  | [], seen => seen
  | t :: ts, seen =>
    if t ∈ seen then firstOccurrencesAux ts seen
    else firstOccurrencesAux ts (seen ++ [t])

/-- First-occurrence deduplication of a list of texts. -/
def firstOccurrences (texts : List String) : List String :=
  firstOccurrencesAux texts []

/-- Source `getLocalNameForExternalImport`: the hoisted local-alias name for an
external entry — the namespace-import local name when one exists and
the import is not a default import, the generated name for imports with a
clause and for re-export declarations, and nothing for clause-less imports. -/
def getLocalNameForExternalImport : ExternalEntry → Option String
  | .importDeclaration _ (some importClause) generatedName =>
    match importClause.namespaceName with
    | some namespaceLocal =>
      if importClause.defaultName.isSome then some generatedName else some namespaceLocal
    | none => some generatedName
  | .importDeclaration _ none _ => none
  | .importEqualsDeclaration name _ => some name
  | .exportDeclaration _ _ generatedName => some generatedName

/-- Source `getLocalNameTextForExternalImport`: the text of the local-alias name. -/
def getLocalNameTextForExternalImport (entry : ExternalEntry) : Option String :=
  getLocalNameForExternalImport entry

/-- Source `createExportExpression(name, value)`: a call to the current file's
export function; an identifier name is converted to a string literal of its
text. -/
def createExportExpression (exportFunctionForFile : String) (name value : Expr) : Expr :=
  let exportName := match name with
    | .ident text => Expr.strLit text
    | _ => name
  .call (.ident exportFunctionForFile) [exportName, value]

/-- Source `createExportStatement(name, value)`: the export call as a statement. -/
def createExportStatement (exportFunctionForFile : String) (name value : Expr) : Stmt :=
  .expressionStatement (createExportExpression exportFunctionForFile name value)

/-- Source `getDeclarationName` for a function declaration: its name, or the
generated name when it has none. -/
def getDeclarationName (node : FunctionDeclarationNode) : String :=
  node.name.getD node.generatedName

/-- Source `createDeclarationExport(node)`: the queued export statement for a
declaration — exported under the literal key `"default"` when the node
carries the `default` modifier, under its own name otherwise. -/
def createDeclarationExport (exportFunctionForFile : String)
    (node : FunctionDeclarationNode) : Stmt :=
  let declarationName := getDeclarationName node
  let exportName : Expr :=
    if hasModifier node.modifiers .defaultModifier then .strLit "default"
    else .ident declarationName
  createExportStatement exportFunctionForFile exportName (.ident declarationName)

/-- Source `recordExportName(name)`: appends a name to the exported-name registry,
creating it on first use. -/
def recordExportName (name : String) (st : TransformState) : TransformState :=
  { st with exportedLocalNames := some ((st.exportedLocalNames.getD []) ++ [name]) }

/-- Source `recordExportedFunctionDeclaration(node)`: queues the declaration-export
statement for an exported function. -/
def recordExportedFunctionDeclaration (exportFunctionForFile : String)
    (node : FunctionDeclarationNode) (st : TransformState) : TransformState :=
  let queued := (st.exportedFunctionDeclarations.getD []) ++
    [createDeclarationExport exportFunctionForFile node]
  { st with exportedFunctionDeclarations := some queued }

/-- The lexical-environment service state: hoisted `var` names and hoisted
function declarations accumulated while visiting (external collaborator,
`hoistVariableDeclaration` / `hoistFunctionDeclaration`). -/
structure LexicalEnvironment where
  hoistedVariables : List String := []
  hoistedFunctions : List Stmt := []

/-- Source `hoistVariableDeclaration(name)`. -/
def hoistVariableDeclaration (name : String) (lex : LexicalEnvironment) :
    LexicalEnvironment :=
  { lex with hoistedVariables := lex.hoistedVariables ++ [name] }

/-- Source `hoistFunctionDeclaration(decl)`. -/
def hoistFunctionDeclaration (node : FunctionDeclarationNode)
    (lex : LexicalEnvironment) : LexicalEnvironment :=
  { lex with hoistedFunctions := lex.hoistedFunctions ++
      [Stmt.functionDeclaration (getDeclarationName node) node.parameters node.body] }

/-- Modelled from the spec: `endLexicalEnvironment` of the lexical/emit
context service (outside this repository slice) returns "the accumulated
hoisted statements": the hoisted variable declarations followed by the
hoisted function declarations. -/
def endLexicalEnvironment (lex : LexicalEnvironment) : List Stmt :=
  (if lex.hoistedVariables.isEmpty then []
   else [Stmt.variableStatement (lex.hoistedVariables.map fun n => (n, none))]) ++
  lex.hoistedFunctions

/-- Source `visitExportAssignment`: only a non-`export =` assignment (`export
default expr`) whose operand denotes a real value is rewritten, to an export
statement under the literal key `"default"`; everything else (including bare
`export =`) is elided. -/
def visitExportAssignment (resolver : Resolver) (exportFunctionForFile : String)
    (node : ExportAssignmentNode) : Option Stmt :=
  if !node.isExportEquals && resolver.isValueAliasExportAssignment node then
    some (createExportStatement exportFunctionForFile (.strLit "default") node.expression)
  else
    none

/-- Source `visitExportSpecifier`: emits an export statement (and records the
exported name) only when the resolver confirms the referenced name is a
genuine value. -/
def visitExportSpecifier (resolver : Resolver) (exportFunctionForFile : String)
    (specifier : ExportSpecifierNode) (st : TransformState) :
    TransformState × Option Stmt :=
  if resolver.getReferencedValueDeclaration (specifier.propertyName.getD specifier.name)
      || resolver.isValueAliasExportSpecifier specifier then
    (recordExportName specifier.name st,
     some (createExportStatement exportFunctionForFile
        (.ident specifier.name) (.ident (specifier.propertyName.getD specifier.name))))
  else
    (st, none)

/-- Source `visitFunctionDeclaration`: an exported function is rebuilt without
modifiers (given a name if it had none), its declaration-export is queued,
its name is recorded unless the rebuilt node carries the `default` modifier,
and the declaration is hoisted out of the statement position. -/
def visitFunctionDeclaration (exportFunctionForFile : String)
    (node : FunctionDeclarationNode) (st : TransformState)
    (lex : LexicalEnvironment) : TransformState × LexicalEnvironment :=
  let (node, st) :=
    if hasModifier node.modifiers .exportModifier then
      let name := node.name.getD node.generatedName
      let node := { node with modifiers := [], name := some name }
      let st := recordExportedFunctionDeclaration exportFunctionForFile node st
      let st :=
        if !(hasModifier node.modifiers .defaultModifier) then recordExportName name st
        else st
      (node, st)
    else
      (node, st)
  (st, hoistFunctionDeclaration node lex)

/-- Source `addExportStarFunction`: appends the runtime star-export helper function
declaration to the statement list; when `localNames` is supplied the copy
condition also excludes that map's own properties. -/
def addExportStarFunction (exportFunctionForFile : String) (statements : List Stmt)
    (localNames : Option String) : List Stmt × String :=
  let exportStarFunction := createUniqueName "exportStar"
  let condition₀ := createStrictInequality (.ident "n") (.strLit "default")
  let condition := match localNames with
    | some names =>
      createLogicalAnd condition₀
        (createLogicalNot (createHasOwnProperty (.ident names) (.ident "n")))
    | none => condition₀
  (statements ++
    [Stmt.functionDeclaration exportStarFunction ["m"]
      [Stmt.variableStatement [("exports", some (.objectLit []))],
       Stmt.forInStatement "n" (.ident "m")
         [Stmt.ifStatement condition
            (.expressionStatement
              (createAssignment
                (.elementAccess (.ident "exports") (.ident "n"))
                (.elementAccess (.ident "m") (.ident "n"))))],
       Stmt.expressionStatement
         (.call (.ident exportFunctionForFile) [.ident "exports"])]],
   exportStarFunction)

/-- Source `addExportStarIfNeeded`: when nothing is exported locally, no export
specifiers exist, and no `export {...} from ...` with an export clause
exists, the helper is emitted without the local-names map; otherwise the
name→`true` map literal is emitted first and the helper filters through it. -/
def addExportStarIfNeeded (exportFunctionForFile : String)
    (exportedLocalNames : Option (List String))
    (exportSpecifiers : List (String × List ExportSpecifierNode))
    (externalImports : List ExternalEntry) (statements : List Stmt) :
    List Stmt × String :=
  if exportedLocalNames.isNone && exportSpecifiers.isEmpty &&
      !(externalImports.any fun e =>
          match e with
          | .exportDeclaration (some _) _ _ => true
          | _ => false) then
    addExportStarFunction exportFunctionForFile statements none
  else
    let exportedNames :=
      ((exportedLocalNames.getD []).map fun n => (n, Expr.boolLit true)) ++
      (externalImports.foldl (fun acc e =>
        match e with
        | .exportDeclaration (some elements) _ _ =>
          acc ++ elements.map fun element => (element.name, Expr.boolLit true)
        | _ => acc) [])
    let exportedNamesStorageRef := createUniqueName "exportedNames"
    let statements := statements ++
      [Stmt.variableStatement
        [(exportedNamesStorageRef, some (.objectLit exportedNames))]]
    addExportStarFunction exportFunctionForFile statements (some exportedNamesStorageRef)

/-- One setter function of `generateSetters`: parameter derived from the
first named entry of the group; body assigns the namespace parameter into
each import's local alias, re-exports explicit clauses through the exporter,
and forwards bare star re-exports to the star helper. -/
def generateSetter (exportFunctionForFile exportStarFunction : String)
    (group : DependencyGroup) : Expr :=
  let parameterName :=
    createUniqueName ((group.externalImports.findSome? getLocalNameTextForExternalImport).getD "")
  let statements := group.externalImports.foldl (fun statements entry =>
    match entry with
    | .importDeclaration _ none _ => statements
    | .importDeclaration _ (some _) _ =>
      statements ++
        (match getLocalNameForExternalImport entry with
         | some importVariableName =>
           [Stmt.expressionStatement
             (createAssignment (.ident importVariableName) (.ident parameterName))]
         | none => [])
    | .importEqualsDeclaration _ _ =>
      statements ++
        (match getLocalNameForExternalImport entry with
         | some importVariableName =>
           [Stmt.expressionStatement
             (createAssignment (.ident importVariableName) (.ident parameterName))]
         | none => [])
    | .exportDeclaration (some elements) _ _ =>
      statements ++
        [Stmt.expressionStatement
          (.call (.ident exportFunctionForFile)
            [.objectLit (elements.map fun e =>
              (e.name,
               Expr.elementAccess (.ident parameterName)
                 (.strLit (e.propertyName.getD e.name))))])]
    | .exportDeclaration none _ _ =>
      statements ++
        [Stmt.expressionStatement
          (.call (.ident exportStarFunction) [.ident parameterName])]) []
  .functionExpr [parameterName] statements

/-- Source `generateSetters`: the array literal of setter functions, one per
dependency group in group order. -/
def generateSetters (exportFunctionForFile exportStarFunction : String)
    (dependencyGroups : List DependencyGroup) : Expr :=
  .arrayLit (dependencyGroups.map (generateSetter exportFunctionForFile exportStarFunction))

/-- Source `substitutePostfixUnaryExpression`: a postfix update of an identifier
bound to an exported name is rewritten so the exporter observes the prefixed
(updated) value while the expression's own value is recovered
arithmetically: `x++` becomes `exports("x", ++x) - 1` and `x--` becomes
`exports("x", --x) + 1`. -/
def substitutePostfixUnaryExpression (resolver : Resolver)
    (exportFunctionForFile : String) (node : Expr) : Expr :=
  match node with
  | .postfixUnary operand op =>
    match operand with
    | .ident name =>
      match resolver.getReferencedExportContainer name with
      | some _ =>
        let exportCall := createExportExpression exportFunctionForFile
          (.ident name) (.prefixUnary op (.ident name))
        (match op with
         | .plusPlus => createSubtract exportCall (.numLit 1)
         | .minusMinus => createAdd exportCall (.numLit 1))
      | none => node
    | _ => node
  | _ => node

/-- The information the module-info scan produces for one file. -/
structure ExternalModuleInfo where
  externalImports : List ExternalEntry := []
  exportSpecifiers : List (String × List ExportSpecifierNode) := []
  exportEquals : Option ExportAssignmentNode := none
  hasExportStars : Bool := false

/-- Adds one export specifier under its exported name in the specifier map. -/
def addExportSpecifier (specifier : ExportSpecifierNode)
    (m : List (String × List ExportSpecifierNode)) :
    List (String × List ExportSpecifierNode) :=
  match m with
  | [] => [(specifier.name, [specifier])]
  | (k, sps) :: rest =>
    if k = specifier.name then (k, sps ++ [specifier]) :: rest
    else (k, sps) :: addExportSpecifier specifier rest

/-- Modelled from the spec: the Module Info Collector
(`collectExternalModuleInfo`, outside this repository slice) — "single
forward scan of top-level statements producing the list of external
module entry constructs, the map of re-export specifiers, an `export =`
record, and a flag for bare `export *`"; order of `externalImports` is
source order of the corresponding statements. -/
def collectExternalModuleInfo (node : SourceFile) : ExternalModuleInfo :=
  node.statements.foldl (fun info s =>
    match s with
    | .importDeclaration moduleSpecifier importClause generatedName =>
      { info with externalImports := info.externalImports ++
          [.importDeclaration moduleSpecifier importClause generatedName] }
    | .importEqualsDeclaration name moduleSpecifier =>
      { info with externalImports := info.externalImports ++
          [.importEqualsDeclaration name moduleSpecifier] }
    | .exportDeclaration exportClause (some moduleSpecifier) generatedName =>
      { info with
          externalImports := info.externalImports ++
            [.exportDeclaration exportClause moduleSpecifier generatedName],
          hasExportStars := info.hasExportStars || exportClause.isNone }
    | .exportDeclaration exportClause none _ =>
      let specifierMap := (exportClause.getD []).foldl
        (fun m sp => addExportSpecifier sp m) info.exportSpecifiers
      { info with exportSpecifiers := specifierMap }
    | .exportAssignment assignment =>
      if assignment.isExportEquals && info.exportEquals.isNone then
        { info with exportEquals := some assignment }
      else info
    | _ => info) {}

/-- Whether a top-level statement is a prologue directive. -/
def isPrologueDirective : SourceStmt → Bool
  | .prologueDirective _ => true
  | _ => false

/-- Modelled from the spec: `addPrologueDirectives` (outside this repository
slice) copies the source file's leading prologue directives into the output
statement list and returns the offset at which visiting resumes. -/
def addPrologueDirectives (statements : List SourceStmt) : List Stmt :=
  (statements.takeWhile isPrologueDirective).map fun s =>
    match s with
    | .prologueDirective text => Stmt.expressionStatement (.strLit text)
    | _ => Stmt.expressionStatement (.strLit "")

/-- Source `visitSourceElement` / `visitNestedNode` for one top-level statement:
dispatches on statement kind, returning the updated per-file state, the
updated lexical environment, and the rewritten statements destined for the
execute body (import/export constructs vanish from statement position). -/
def visitSourceElement (resolver : Resolver) (exportFunctionForFile : String)
    (externalImports : List ExternalEntry) (s : SourceStmt)
    (st : TransformState) (lex : LexicalEnvironment) :
    TransformState × LexicalEnvironment × List Stmt :=
  match s with
  | .importDeclaration moduleSpecifier importClause generatedName =>
    let entry : ExternalEntry := .importDeclaration moduleSpecifier importClause generatedName
    if importClause.isSome && externalImports.contains entry then
      match getLocalNameForExternalImport entry with
      | some localName => (st, hoistVariableDeclaration localName lex, [])
      | none => (st, lex, [])
    else
      (st, lex, [])
  | .importEqualsDeclaration name moduleSpecifier =>
    let entry : ExternalEntry := .importEqualsDeclaration name moduleSpecifier
    if externalImports.contains entry then
      match getLocalNameForExternalImport entry with
      | some localName => (st, hoistVariableDeclaration localName lex, [])
      | none => (st, lex, [])
    else
      (st, lex, [])
  | .exportDeclaration exportClause none _ =>
    let (st, statements) := (exportClause.getD []).foldl
      (fun (acc : TransformState × List Stmt) specifier =>
        let (st, stmts) := acc
        match visitExportSpecifier resolver exportFunctionForFile specifier st with
        | (st, some stmt) => (st, stmts ++ [stmt])
        | (st, none) => (st, stmts)) (st, [])
    (st, lex, statements)
  | .exportDeclaration _ (some _) _ => (st, lex, [])
  | .exportAssignment assignment =>
    match visitExportAssignment resolver exportFunctionForFile assignment with
    | some stmt => (st, lex, [stmt])
    | none => (st, lex, [])
  | .functionDeclaration fd =>
    let (st, lex) := visitFunctionDeclaration exportFunctionForFile fd st lex
    (st, lex, [])
  | .prologueDirective text => (st, lex, [Stmt.expressionStatement (.strLit text)])
  | .statement stmt => (st, lex, [stmt])

/-- Visits a list of top-level statements in order, accumulating the execute
body. -/
def visitSourceElements (resolver : Resolver) (exportFunctionForFile : String)
    (externalImports : List ExternalEntry) (statements : List SourceStmt)
    (st : TransformState) (lex : LexicalEnvironment) :
    TransformState × LexicalEnvironment × List Stmt :=
  statements.foldl (fun (acc : TransformState × LexicalEnvironment × List Stmt) s =>
    let (st, lex, stmts) := acc
    let (st, lex, stmts') := visitSourceElement resolver exportFunctionForFile
      externalImports s st lex
    (st, lex, stmts ++ stmts')) (st, lex, [])

/-- Source `transformSystemModuleWorker`: asserts the previous file's state was
cleared (`Debug.assert(!exportFunctionForFile)`, modelled as `none` on
failure), collects module info and dependency groups, and assembles the
single `System.register(...)` call.  The first argument of the register call
is present only when the file carries an explicit module name (the source
passes `undefined` in that slot, which the printer elides). -/
def transformSystemModuleWorker (resolver : Resolver) (node : SourceFile)
    (st : TransformState) : Option (SourceFile × TransformState) :=
  if st.exportFunctionForFile.isSome then none
  else
    let info := collectExternalModuleInfo node
    let st := { st with
      externalImports := some info.externalImports,
      exportSpecifiers := some info.exportSpecifiers,
      exportEquals := info.exportEquals,
      hasExportStars := info.hasExportStars }
    let exportFunctionForFile := createUniqueName "exports"
    let contextObjectForFile := createUniqueName "context"
    let st := { st with
      exportFunctionForFile := some exportFunctionForFile,
      contextObjectForFile := some contextObjectForFile }
    let dependencyGroups := collectDependencyGroups node.renamedDependencies
      info.externalImports
    let prologueStatements := addPrologueDirectives node.statements
    let statementOffset := (node.statements.takeWhile isPrologueDirective).length
    let moduleNameVar := Stmt.variableStatement
      [("__moduleName", some (createLogicalAnd (.ident contextObjectForFile)
          (.propertyAccess (.ident contextObjectForFile) "id")))]
    let visited := visitSourceElements resolver
      exportFunctionForFile info.externalImports
      (node.statements.drop statementOffset) st {}
    let st := visited.1
    let lex := visited.2.1
    let executeStatements := visited.2.2
    let bodyStatements := endLexicalEnvironment lex ++
      st.exportedFunctionDeclarations.getD []
    let starResult := addExportStarIfNeeded
      exportFunctionForFile st.exportedLocalNames (st.exportSpecifiers.getD [])
      info.externalImports bodyStatements
    let bodyStatements := starResult.1
    let exportStarFunction := starResult.2
    let returnStatement := Stmt.returnStatement (.objectLit
      [("setters", generateSetters exportFunctionForFile exportStarFunction
          dependencyGroups),
       ("execute", .functionExpr [] executeStatements)])
    let statements := prologueStatements ++ [moduleNameVar] ++ bodyStatements ++
      [returnStatement]
    let registerArgs :=
      (match node.moduleName with
       | some moduleName => [Expr.strLit moduleName]
       | none => []) ++
      [Expr.arrayLit (dependencyGroups.map fun g => Expr.strLit g.name),
       Expr.functionExpr [exportFunctionForFile, contextObjectForFile] statements]
    some ({ node with statements :=
        [SourceStmt.statement (.expressionStatement
          (.call (.propertyAccess (.ident "System") "register") registerArgs))] },
      st)

/-- The fully-cleared per-file state the pass restores after producing a
file's output (source lines 48-56). -/
def clearedState : TransformState :=
  { currentSourceFile := none,
    externalImports := none,
    exportSpecifiers := none,
    exportEquals := none,
    hasExportStars := false,
    exportFunctionForFile := none,
    contextObjectForFile := none,
    exportedLocalNames := none,
    exportedFunctionDeclarations := none }

/-- Source `transformSourceFile`: external modules (or any file under
`isolatedModules`) are transformed and the per-file state is cleared before
returning; every other file is returned untouched.  `none` models the
`Debug.assert` firing inside the worker. -/
def transformSourceFile (resolver : Resolver) (isolatedModules : Bool)
    (st : TransformState) (node : SourceFile) :
    Option (SourceFile × TransformState) :=
  if node.isExternalModule || isolatedModules then
    let st := { st with currentSourceFile := some node }
    match transformSystemModuleWorker resolver node st with
    | none => none
    | some (updated, _) => some (updated, clearedState)
  else
    some (node, st)

/-!
A small JavaScript runtime semantics for the output fragments whose behavior
the spec pins down (assignment/update rewrites and the star-export helper).
`Value.vExporter` is the loader-provided exporter callback: calling it
records its arguments in the trace and returns its last argument (the source
relies on `exports('name', value)` returning `value`).  Unmodelled constructs
evaluate to `none`.
-/

/-- Runtime values. -/
inductive Value where
  | vStr (s : String)
  | vInt (n : Int)
  | vBool (b : Bool)
  | vObj (properties : List (String × Value))
  | vUndefined
  | vExporter

/-- A variable environment; lookup finds the most recent binding. -/
abbrev Env := List (String × Value)

/-- Assign to the nearest existing binding of `name` (or create one). -/
def envSet (name : String) (v : Value) : Env → Env
  | [] => [(name, v)]
  | (n, w) :: rest =>
    if n = name then (name, v) :: rest else (n, w) :: envSet name v rest

/-- Set an object property, updating in place or appending in insertion
order (JavaScript property-order semantics). -/
def objSet (key : String) (v : Value) : List (String × Value) → List (String × Value)
  | [] => [(key, v)]
  | (k, w) :: rest =>
    if k = key then (k, v) :: rest else (k, w) :: objSet key v rest

/-- Runtime state: the environment and the trace of exporter-call argument
lists, in call order. -/
structure RuntimeState where
  env : Env
  trace : List (List Value)

mutual
/-- Evaluate an expression; returns its value and the updated state. -/
def eval : Expr → RuntimeState → Option (Value × RuntimeState)
  | .ident name, st =>
    match st.env.lookup name with
    | some v => some (v, st)
    | none => none
  | .strLit s, st => some (.vStr s, st)
  | .numLit n, st => some (.vInt n, st)
  | .boolLit b, st => some (.vBool b, st)
  | .binary .assign (.ident name) rhs, st =>
    (match eval rhs st with
     | some (v, st) => some (v, { st with env := envSet name v st.env })
     | none => none)
  | .binary .assign (.elementAccess (.ident objName) index) rhs, st =>
    (match eval index st with
     | some (.vStr key, st) =>
       (match eval rhs st with
        | some (v, st) =>
          (match st.env.lookup objName with
           | some (.vObj props) =>
             some (v, { st with env := envSet objName (.vObj (objSet key v props)) st.env })
           | _ => none)
        | none => none)
     | _ => none)
  | .binary .assign _ _, _ => none
  | .binary .add l r, st =>
    (match eval l st with
     | some (.vInt a, st) =>
       (match eval r st with
        | some (.vInt b, st) => some (.vInt (a + b), st)
        | _ => none)
     | _ => none)
  | .binary .subtract l r, st =>
    (match eval l st with
     | some (.vInt a, st) =>
       (match eval r st with
        | some (.vInt b, st) => some (.vInt (a - b), st)
        | _ => none)
     | _ => none)
  | .binary .strictInequality l r, st =>
    (match eval l st with
     | some (.vStr a, st) =>
       (match eval r st with
        | some (.vStr b, st) => some (.vBool (a != b), st)
        | _ => none)
     | _ => none)
  | .binary .logicalAnd l r, st =>
    (match eval l st with
     | some (.vBool b, st) =>
       if b then eval r st else some (.vBool false, st)
     | _ => none)
  | .logicalNot e, st =>
    (match eval e st with
     | some (.vBool b, st) => some (.vBool !b, st)
     | _ => none)
  | .prefixUnary op (.ident name), st =>
    (match st.env.lookup name with
     | some (.vInt n) =>
       let n' := match op with
         | .plusPlus => n + 1
         | .minusMinus => n - 1
       some (.vInt n', { st with env := envSet name (.vInt n') st.env })
     | _ => none)
  | .prefixUnary _ _, _ => none
  | .postfixUnary (.ident name) op, st =>
    (match st.env.lookup name with
     | some (.vInt n) =>
       let n' := match op with
         | .plusPlus => n + 1
         | .minusMinus => n - 1
       some (.vInt n, { st with env := envSet name (.vInt n') st.env })
     | _ => none)
  | .postfixUnary _ _, _ => none
  | .call (.propertyAccess object "hasOwnProperty") args, st =>
    (match eval object st with
     | some (.vObj props, st) =>
       (match args with
        | [key] =>
          (match eval key st with
           | some (.vStr k, st) => some (.vBool (props.lookup k).isSome, st)
           | _ => none)
        | _ => none)
     | _ => none)
  | .call callee args, st =>
    (match eval callee st with
     | some (.vExporter, st) =>
       (match evalArgs args st with
        | some (vs, st) =>
          (match vs.getLast? with
           | some v => some (v, { st with trace := st.trace ++ [vs] })
           | none => none)
        | none => none)
     | _ => none)
  | .propertyAccess object name, st =>
    (match eval object st with
     | some (.vObj props, st) => some ((props.lookup name).getD .vUndefined, st)
     | _ => none)
  | .elementAccess object index, st =>
    (match eval object st with
     | some (.vObj props, st) =>
       (match eval index st with
        | some (.vStr key, st) => some ((props.lookup key).getD .vUndefined, st)
        | _ => none)
     | _ => none)
  | .objectLit properties, st =>
    (match evalProps properties st with
     | some (vs, st) => some (.vObj vs, st)
     | none => none)
  | .arrayLit _, _ => none
  | .functionExpr _ _, _ => none

/-- Evaluate call arguments left to right. -/
def evalArgs : List Expr → RuntimeState → Option (List Value × RuntimeState)
  | [], st => some ([], st)
  | e :: rest, st =>
    (match eval e st with
     | some (v, st) =>
       (match evalArgs rest st with
        | some (vs, st) => some (v :: vs, st)
        | none => none)
     | none => none)

/-- Evaluate object-literal properties left to right. -/
def evalProps : List (String × Expr) → RuntimeState → Option (List (String × Value) × RuntimeState)
  | [], st => some ([], st)
  | (k, e) :: rest, st =>
    (match eval e st with
     | some (v, st) =>
       (match evalProps rest st with
        | some (vs, st) => some ((k, v) :: vs, st)
        | none => none)
     | none => none)
end

/-- Execute the declarations of a `var` statement. -/
def execVarDecls : List (String × Option Expr) → RuntimeState → Option RuntimeState
  | [], st => some st
  | (name, none) :: rest, st =>
    execVarDecls rest { st with env := (name, .vUndefined) :: st.env }
  | (name, some e) :: rest, st =>
    (match eval e st with
     | some (v, st) => execVarDecls rest { st with env := (name, v) :: st.env }
     | none => none)

mutual
/-- Execute a statement. -/
def exec : Stmt → RuntimeState → Option RuntimeState
  | .expressionStatement e, st =>
    (match eval e st with
     | some (_, st) => some st
     | none => none)
  | .variableStatement declarations, st => execVarDecls declarations st
  | .functionDeclaration _ _ _, st => some st
  | .returnStatement _, _ => none
  | .forInStatement n object body, st =>
    (match eval object st with
     | some (.vObj props, st) =>
       execForIn n body (props.map Prod.fst) { st with env := (n, .vUndefined) :: st.env }
     | _ => none)
  | .ifStatement condition thenStatement, st =>
    (match eval condition st with
     | some (.vBool true, st) => exec thenStatement st
     | some (.vBool false, st) => some st
     | _ => none)
termination_by s _ => (sizeOf s, 0)

/-- Execute a statement list in order. -/
def execList : List Stmt → RuntimeState → Option RuntimeState
  | [], st => some st
  | s :: rest, st =>
    (match exec s st with
     | some st => execList rest st
     | none => none)
termination_by ss _ => (sizeOf ss, 0)

/-- Run a `for (var n in m)` body once per key, in key order. -/
def execForIn (n : String) (body : List Stmt) :
    List String → RuntimeState → Option RuntimeState
  | [], st => some st
  | key :: keys, st =>
    (match execList body { st with env := envSet n (.vStr key) st.env } with
     | some st => execForIn n body keys st
     | none => none)
termination_by keys _ => (sizeOf body, keys.length)
end

/-- Apply a generated one-parameter function declaration to an argument:
binds the parameter over the given closure environment and runs the body. -/
def runGeneratedHelper (decl : Stmt) (closureEnv : Env) (arg : Value) :
    Option RuntimeState :=
  match decl with
  | .functionDeclaration _ [param] body =>
    execList body { env := (param, arg) :: closureEnv, trace := [] }
  | _ => none

/-!
Concrete fixtures used by witnesses and counterexamples.
-/

/-- A resolver that reports every identifier as exported from the file and
every alias as a value alias. -/
def valueResolver : Resolver :=
  { getReferencedExportContainer := fun _ => some .sourceFile,
    getReferencedValueDeclaration := fun _ => true,
    isValueAliasExportAssignment := fun _ => true,
    isValueAliasExportSpecifier := fun _ => true }

/-- An empty external-module source file. -/
def emptyModuleFile : SourceFile :=
  { statements := [], moduleName := none, renamedDependencies := [],
    isExternalModule := true }

/-- An empty file that is not an external module. -/
def emptyScriptFile : SourceFile :=
  { statements := [], moduleName := none, renamedDependencies := [],
    isExternalModule := false }

/-- A module file with three imports over two distinct specifiers and an
explicit module name. -/
def sampleImportFile : SourceFile :=
  { statements :=
      [.importDeclaration "dep"
         (some { defaultName := none, namespaceName := some "ns" }) "dep_gen",
       .importDeclaration "dep"
         (some { defaultName := none, namespaceName := none }) "dep_gen2",
       .importDeclaration "other"
         (some { defaultName := none, namespaceName := some "o" }) "other_gen"],
    moduleName := some "mod", renamedDependencies := [],
    isExternalModule := true }

/-!
Claim theorems.
-/

/-- C4 (code evaluated at the failing input): for `export default function
f() {}` the transformer records `"f"` in the exported-name registry and
queues `exports("f", f)` — the export key is the function's name, not
`"default"`, and the name is registered.  The `default`-modifier check is
performed on the freshly rebuilt node whose modifiers were dropped, so it
can never see the `default` modifier.  For a non-default exported function
(second half) the recorded name and key are the name, as the claim states. -/
theorem visitFunctionDeclaration_default_export_behavior :
    (visitFunctionDeclaration "exports_1"
      { modifiers := [.exportModifier, .defaultModifier], name := some "f",
        generatedName := "f_1", parameters := [], body := [] } {} {}).1
      = { exportedLocalNames := some ["f"],
          exportedFunctionDeclarations := some
            [Stmt.expressionStatement
              (.call (.ident "exports_1") [.strLit "f", .ident "f"])] } ∧
    (visitFunctionDeclaration "exports_1"
      { modifiers := [.exportModifier], name := some "g",
        generatedName := "g_1", parameters := [], body := [] } {} {}).1
      = { exportedLocalNames := some ["g"],
          exportedFunctionDeclarations := some
            [Stmt.expressionStatement
              (.call (.ident "exports_1") [.strLit "g", .ident "g"])] } :=
  ⟨rfl, rfl⟩

/-- C2 counterexample: a bare `export = v` whose operand the resolver
confirms to be a value alias is *not* rewritten to an export statement under
`"default"` — `visitExportAssignment` elides it entirely (the rewrite
guards on `!node.isExportEquals`, i.e. on `export default`). -/
theorem visitExportAssignment_export_equals_dropped :
    visitExportAssignment valueResolver "exports_1"
      { isExportEquals := true, expression := .ident "v" } = none :=
  rfl

/-- C2 (amended): a bare `export =` statement is elided; it is the
non-`export =` export assignment (`export default expr`) whose operand
denotes a real value that is rewritten to a call of the exporter with the
literal key `"default"` and the operand expression. -/
theorem visitExportAssignment_spec (resolver : Resolver)
    (exportFunctionForFile : String) (e : Expr)
    (hAlias : resolver.isValueAliasExportAssignment
      { isExportEquals := false, expression := e } = true) :
    visitExportAssignment resolver exportFunctionForFile
      { isExportEquals := true, expression := e } = none ∧
    visitExportAssignment resolver exportFunctionForFile
      { isExportEquals := false, expression := e }
      = some (.expressionStatement
          (.call (.ident exportFunctionForFile) [.strLit "default", e])) := by
  refine ⟨rfl, ?_⟩
  simp [visitExportAssignment, hAlias, createExportStatement, createExportExpression]

/-- C2 witness: the amended statement at a concrete resolver and operand. -/
theorem visitExportAssignment_spec_witness :
    visitExportAssignment valueResolver "exports_1"
      { isExportEquals := true, expression := .ident "v" } = none ∧
    visitExportAssignment valueResolver "exports_1"
      { isExportEquals := false, expression := .ident "v" }
      = some (.expressionStatement
          (.call (.ident "exports_1") [.strLit "default", .ident "v"])) :=
  visitExportAssignment_spec valueResolver "exports_1" (.ident "v") rfl

/-- C9: a file that is not an external module, with `isolatedModules` off,
is returned unchanged — the very same node — and the per-file transform
state is untouched. -/
theorem transformSourceFile_non_module_passthrough (resolver : Resolver)
    (st : TransformState) (node : SourceFile)
    (hExt : node.isExternalModule = false) :
    transformSourceFile resolver false st node = some (node, st) := by
  simp [transformSourceFile, hExt]

/-- C9 witness: the passthrough at a concrete non-module file. -/
theorem transformSourceFile_non_module_passthrough_witness :
    transformSourceFile valueResolver false {} emptyScriptFile
      = some (emptyScriptFile, {}) :=
  transformSourceFile_non_module_passthrough valueResolver {} emptyScriptFile rfl

/-- C8: after transforming an external-module file (or any file under
`isolatedModules`), every per-file state field is reset — the returned state
is exactly the all-cleared record; and beginning a file's transform while
the previous exporter identifier is still set makes the worker's assertion
fail. -/
theorem transformSourceFile_state_lifecycle (resolver : Resolver)
    (isolatedModules : Bool) (st : TransformState) (node : SourceFile) :
    ((node.isExternalModule || isolatedModules) = true →
      st.exportFunctionForFile = none →
      ∃ out, transformSourceFile resolver isolatedModules st node
        = some (out, clearedState)) ∧
    ((node.isExternalModule || isolatedModules) = true →
      st.exportFunctionForFile.isSome = true →
      transformSourceFile resolver isolatedModules st node = none) := by
  constructor
  · intro hmod hclear
    simp [transformSourceFile, hmod, transformSystemModuleWorker, hclear]
  · intro hmod hsome
    simp [transformSourceFile, hmod, transformSystemModuleWorker, hsome]

/-- C3 counterexample: the empty module file contains no `export * from ...`
construct (`hasExportStars` is `false`), yet the produced module body still
contains the star-export helper function declaration — the transform emits
the helper unconditionally (the collected flag is never consulted), so
"emitted if and only if the file contains at least one `export * from ...`"
fails. -/
theorem exportStar_helper_emitted_without_export_star :
    (collectExternalModuleInfo emptyModuleFile).hasExportStars = false ∧
    ∃ st', transformSourceFile valueResolver false {} emptyModuleFile = some
      ({ statements := [SourceStmt.statement (.expressionStatement
          (.call (.propertyAccess (.ident "System") "register")
            [Expr.arrayLit [],
             Expr.functionExpr ["exports_1", "context_1"]
               [Stmt.variableStatement [("__moduleName", some (.binary .logicalAnd (.ident "context_1")
                   (.propertyAccess (.ident "context_1") "id")))],
                Stmt.functionDeclaration "exportStar_1" ["m"]
                  [Stmt.variableStatement [("exports", some (.objectLit []))],
                   Stmt.forInStatement "n" (.ident "m")
                     [Stmt.ifStatement (.binary .strictInequality (.ident "n") (.strLit "default"))
                        (.expressionStatement (.binary .assign
                          (.elementAccess (.ident "exports") (.ident "n"))
                          (.elementAccess (.ident "m") (.ident "n"))))],
                   Stmt.expressionStatement (.call (.ident "exports_1") [.ident "exports"])],
                Stmt.returnStatement (.objectLit
                  [("setters", .arrayLit []),
                   ("execute", .functionExpr [] [])])]]))],
         moduleName := none, renamedDependencies := [], isExternalModule := true }, st') :=
  ⟨rfl, clearedState, rfl⟩

/-- C3 (amended): `addExportStarIfNeeded` always appends the star-export
helper (once per transformed file), whether or not any `export * from ...`
exists; the helper comes without the name-collision exclusion map exactly
when no local exported names, no export specifiers, and no export
declaration with an explicit export clause exist, and otherwise the
name-map variable is emitted and the helper's copy condition consults it. -/
theorem addExportStarIfNeeded_always_emits (exportFn : String)
    (names : Option (List String))
    (specifiers : List (String × List ExportSpecifierNode))
    (extImports : List ExternalEntry) (statements : List Stmt) :
    ((names.isNone && specifiers.isEmpty &&
        !(extImports.any fun e =>
          match e with
          | .exportDeclaration (some _) _ _ => true
          | _ => false)) = true →
      addExportStarIfNeeded exportFn names specifiers extImports statements
        = (statements ++
            [Stmt.functionDeclaration (createUniqueName "exportStar") ["m"]
              [Stmt.variableStatement [("exports", some (.objectLit []))],
               Stmt.forInStatement "n" (.ident "m")
                 [Stmt.ifStatement
                    (.binary .strictInequality (.ident "n") (.strLit "default"))
                    (.expressionStatement (.binary .assign
                      (.elementAccess (.ident "exports") (.ident "n"))
                      (.elementAccess (.ident "m") (.ident "n"))))],
               Stmt.expressionStatement (.call (.ident exportFn) [.ident "exports"])]],
           createUniqueName "exportStar")) ∧
    ((names.isNone && specifiers.isEmpty &&
        !(extImports.any fun e =>
          match e with
          | .exportDeclaration (some _) _ _ => true
          | _ => false)) = false →
      ∃ exportedNames,
      addExportStarIfNeeded exportFn names specifiers extImports statements
        = (statements ++
            [Stmt.variableStatement
               [(createUniqueName "exportedNames", some (.objectLit exportedNames))],
             Stmt.functionDeclaration (createUniqueName "exportStar") ["m"]
              [Stmt.variableStatement [("exports", some (.objectLit []))],
               Stmt.forInStatement "n" (.ident "m")
                 [Stmt.ifStatement
                    (.binary .logicalAnd
                      (.binary .strictInequality (.ident "n") (.strLit "default"))
                      (.logicalNot (.call
                        (.propertyAccess (.ident (createUniqueName "exportedNames"))
                          "hasOwnProperty") [.ident "n"])))
                    (.expressionStatement (.binary .assign
                      (.elementAccess (.ident "exports") (.ident "n"))
                      (.elementAccess (.ident "m") (.ident "n"))))],
               Stmt.expressionStatement (.call (.ident exportFn) [.ident "exports"])]],
           createUniqueName "exportStar")) := by
  constructor
  · intro hmin
    simp only [addExportStarIfNeeded, hmin, if_true]
    rfl
  · intro hmin
    simp only [addExportStarIfNeeded, hmin, Bool.false_eq_true, if_false,
      addExportStarFunction, createStrictInequality, createLogicalAnd,
      createLogicalNot, createHasOwnProperty, createAssignment,
      List.append_assoc]
    exact ⟨_, rfl⟩

/-- C3 amended-claim witness: the helper without the map on fully empty
inputs, and with the map once a local exported name exists. -/
theorem addExportStarIfNeeded_always_emits_witness :
    addExportStarIfNeeded "exports_1" none [] [] []
      = ([Stmt.functionDeclaration (createUniqueName "exportStar") ["m"]
            [Stmt.variableStatement [("exports", some (.objectLit []))],
             Stmt.forInStatement "n" (.ident "m")
               [Stmt.ifStatement
                  (.binary .strictInequality (.ident "n") (.strLit "default"))
                  (.expressionStatement (.binary .assign
                    (.elementAccess (.ident "exports") (.ident "n"))
                    (.elementAccess (.ident "m") (.ident "n"))))],
             Stmt.expressionStatement (.call (.ident "exports_1") [.ident "exports"])]],
         createUniqueName "exportStar") ∧
    ∃ exportedNames,
      addExportStarIfNeeded "exports_1" (some ["a"]) [] [] []
        = ([Stmt.variableStatement
              [(createUniqueName "exportedNames", some (.objectLit exportedNames))],
            Stmt.functionDeclaration (createUniqueName "exportStar") ["m"]
             [Stmt.variableStatement [("exports", some (.objectLit []))],
              Stmt.forInStatement "n" (.ident "m")
                [Stmt.ifStatement
                   (.binary .logicalAnd
                     (.binary .strictInequality (.ident "n") (.strLit "default"))
                     (.logicalNot (.call
                       (.propertyAccess (.ident (createUniqueName "exportedNames"))
                         "hasOwnProperty") [.ident "n"])))
                   (.expressionStatement (.binary .assign
                     (.elementAccess (.ident "exports") (.ident "n"))
                     (.elementAccess (.ident "m") (.ident "n"))))],
              Stmt.expressionStatement (.call (.ident "exports_1") [.ident "exports"])]],
           createUniqueName "exportStar") := by
  have h := addExportStarIfNeeded_always_emits "exports_1" none
    ([] : List (String × List ExportSpecifierNode)) [] []
  have h2 := addExportStarIfNeeded_always_emits "exports_1" (some ["a"])
    ([] : List (String × List ExportSpecifierNode)) [] []
  exact ⟨by simpa using h.1 rfl, by simpa using h2.2 rfl⟩

/-- C10: the factory-function body of every transformed file begins,
immediately after the copied prologue directives, with the statement
`var __moduleName = context_1 && context_1.id;` binding the loader-provided
module id. -/
theorem factory_body_starts_with_moduleName_var (resolver : Resolver)
    (node : SourceFile) (st : TransformState)
    (hclear : st.exportFunctionForFile = none) :
    ∃ out st' leadingArgs depsArray bodyRest,
      transformSystemModuleWorker resolver node st = some (out, st') ∧
      out.statements = [SourceStmt.statement (.expressionStatement
        (.call (.propertyAccess (.ident "System") "register")
          (leadingArgs ++ [depsArray,
            .functionExpr [createUniqueName "exports", createUniqueName "context"]
              (addPrologueDirectives node.statements ++
               Stmt.variableStatement [("__moduleName",
                 some (createLogicalAnd (.ident (createUniqueName "context"))
                   (.propertyAccess (.ident (createUniqueName "context")) "id")))]
               :: bodyRest)])))] := by
  have hA : st.exportFunctionForFile.isSome = false := by simp [hclear]
  simp only [transformSystemModuleWorker, hA, Bool.false_eq_true, if_false,
    List.append_assoc, List.singleton_append]
  exact ⟨_, _, _, _, _, rfl, rfl⟩

/-- C10 witness: the worker at the empty module file with cleared state. -/
theorem factory_body_starts_with_moduleName_var_witness :
    ∃ out st' leadingArgs depsArray bodyRest,
      transformSystemModuleWorker valueResolver emptyModuleFile {} = some (out, st') ∧
      out.statements = [SourceStmt.statement (.expressionStatement
        (.call (.propertyAccess (.ident "System") "register")
          (leadingArgs ++ [depsArray,
            .functionExpr [createUniqueName "exports", createUniqueName "context"]
              (addPrologueDirectives emptyModuleFile.statements ++
               Stmt.variableStatement [("__moduleName",
                 some (createLogicalAnd (.ident (createUniqueName "context"))
                   (.propertyAccess (.ident (createUniqueName "context")) "id")))]
               :: bodyRest)])))] :=
  factory_body_starts_with_moduleName_var valueResolver emptyModuleFile {} rfl

/-- Looking a key up in the name→`true` map literal succeeds exactly when
the key is one of the local names. -/
theorem lookup_vBool_map (k : String) (keys : List String) :
    (List.lookup k (keys.map fun s => (s, Value.vBool true))).isSome
      = keys.contains k := by
  induction keys with
  | nil => rfl
  | cons a as ih =>
    simp only [List.map_cons, List.lookup, List.contains_cons]
    by_cases h : k = a
    · simp [h]
    · have hb : (k == a) = false := by simp [h]
      simp [hb, ih]

/-- Setting a key absent from an object appends it (JavaScript property
insertion order). -/
theorem objSet_lookup_none (k : String) (v : Value) (l : List (String × Value))
    (h : List.lookup k l = none) : objSet k v l = l ++ [(k, v)] := by
  induction l with
  | nil => rfl
  | cons p t ih =>
    obtain ⟨k', v'⟩ := p
    simp only [List.lookup] at h
    by_cases hk : k = k'
    · simp [hk] at h
    · have hb : (k == k') = false := by simp [hk]
      rw [hb] at h
      simp only [objSet]
      have : ¬(k' = k) := fun hEq => hk hEq.symm
      simp [this, ih h]

/-- Lookup misses an append when it misses both parts. -/
theorem lookup_append_none (a : String) (l₁ l₂ : List (String × Value))
    (h₁ : List.lookup a l₁ = none) (h₂ : List.lookup a l₂ = none) :
    List.lookup a (l₁ ++ l₂) = none := by
  induction l₁ with
  | nil => simpa using h₂
  | cons p t ih =>
    obtain ⟨k', v'⟩ := p
    simp only [List.lookup] at h₁ ⊢
    by_cases hk : a = k'
    · simp [hk] at h₁
    · have hb : (a == k') = false := by simp [hk]
      rw [hb] at h₁ ⊢
      exact ih h₁

/-- In an association list with duplicate-free keys, every member is found
by lookup. -/
theorem lookup_of_mem_nodup (l : List (String × Value))
    (hl : (l.map Prod.fst).Nodup) (p : String × Value) (hp : p ∈ l) :
    List.lookup p.1 l = some p.2 := by
  induction l with
  | nil => simp at hp
  | cons q t ih =>
    obtain ⟨k', v'⟩ := q
    rw [List.map_cons, List.nodup_cons] at hl
    rcases List.mem_cons.mp hp with hEq | hMem
    · subst hEq
      simp [List.lookup]
    · have hmem : p.1 ∈ t.map Prod.fst := List.mem_map_of_mem Prod.fst hMem
      have hne : p.1 ≠ k' := fun hEq => hl.1 (hEq ▸ hmem)
      have hb : (p.1 == k') = false := by simp [hne]
      simp only [List.lookup, hb]
      exact ih hl.2 hMem

/-- Executing an `if` statement whose condition evaluates without effects. -/
theorem exec_ifStatement (cond : Expr) (thenStmt : Stmt) (st : RuntimeState)
    (b : Bool) (hc : eval cond st = some (.vBool b, st)) :
    exec (.ifStatement cond thenStmt) st
      = if b then exec thenStmt st else some st := by
  simp only [exec]
  rw [hc]
  cases b <;> simp

/-- The copy loop of the star-export helper: iterating the namespace
object's keys accumulates, in key order, exactly the entries whose key
passes the condition. -/
theorem execForIn_exportStar (cond : Expr) (P : String → Bool)
    (closure : Env) (ns : List (String × Value))
    (hcond : ∀ (k : String) (acc : List (String × Value)) (tr : List (List Value)),
      eval cond { env := ("n", .vStr k) :: ("exports", .vObj acc)
          :: ("m", .vObj ns) :: closure, trace := tr }
        = some (.vBool (P k),
            { env := ("n", .vStr k) :: ("exports", .vObj acc)
                :: ("m", .vObj ns) :: closure, trace := tr })) :
    ∀ (rest acc : List (String × Value)) (cur : Value) (tr : List (List Value)),
      (∀ p ∈ rest, List.lookup p.1 ns = some p.2) →
      (∀ p ∈ rest, List.lookup p.1 acc = none) →
      (rest.map Prod.fst).Nodup →
      ∃ curFinal,
        execForIn "n"
          [Stmt.ifStatement cond (.expressionStatement (.binary .assign
            (.elementAccess (.ident "exports") (.ident "n"))
            (.elementAccess (.ident "m") (.ident "n"))))]
          (rest.map Prod.fst)
          { env := ("n", cur) :: ("exports", .vObj acc)
              :: ("m", .vObj ns) :: closure, trace := tr }
        = some { env := ("n", curFinal)
              :: ("exports", .vObj (acc ++ rest.filter fun p => P p.1))
              :: ("m", .vObj ns) :: closure, trace := tr } := by
  intro rest
  induction rest with
  | nil =>
    intro acc cur tr _ _ _
    exact ⟨cur, by simp [execForIn]⟩
  | cons p rest ih =>
    obtain ⟨k, v⟩ := p
    intro acc cur tr hns hacc hnodup
    rw [List.map_cons, List.nodup_cons] at hnodup
    rw [List.map_cons]
    simp only [execForIn]
    have henv : envSet "n" (Value.vStr k) (("n", cur) :: ("exports", Value.vObj acc)
        :: ("m", Value.vObj ns) :: closure)
        = ("n", Value.vStr k) :: ("exports", Value.vObj acc)
            :: ("m", Value.vObj ns) :: closure := by
      simp [envSet]
    rw [henv]
    simp only [execList]
    rw [exec_ifStatement _ _ _ _ (hcond k acc tr)]
    cases hP : P k
    · simp only [Bool.false_eq_true, if_false]
      obtain ⟨curF, hrun⟩ := ih acc (Value.vStr k) tr
        (fun q hq => hns q (List.mem_cons_of_mem _ hq))
        (fun q hq => hacc q (List.mem_cons_of_mem _ hq))
        hnodup.2
      refine ⟨curF, ?_⟩
      rw [hrun]
      simp [List.filter_cons, hP]
    · simp only [if_true]
      have hv : List.lookup k ns = some v := hns (k, v) (List.mem_cons_self _ _)
      have hassignEval : eval (.binary .assign
            (.elementAccess (.ident "exports") (.ident "n"))
            (.elementAccess (.ident "m") (.ident "n")))
          { env := ("n", Value.vStr k) :: ("exports", Value.vObj acc)
              :: ("m", Value.vObj ns) :: closure, trace := tr }
          = some ((List.lookup k ns).getD .vUndefined,
              { env := ("n", Value.vStr k)
                  :: ("exports", Value.vObj
                      (objSet k ((List.lookup k ns).getD .vUndefined) acc))
                  :: ("m", Value.vObj ns) :: closure, trace := tr }) := rfl
      rw [hv] at hassignEval
      simp only [Option.getD_some] at hassignEval
      rw [objSet_lookup_none k v acc (hacc (k, v) (List.mem_cons_self _ _))]
        at hassignEval
      simp only [exec]
      rw [hassignEval]
      obtain ⟨curF, hrun⟩ := ih (acc ++ [(k, v)]) (Value.vStr k) tr
        (fun q hq => hns q (List.mem_cons_of_mem _ hq))
        (fun q hq => by
          have hmem : q.1 ∈ rest.map Prod.fst := List.mem_map_of_mem Prod.fst hq
          have hne : q.1 ≠ k := fun hEq => hnodup.1 (hEq ▸ hmem)
          have hb : (q.1 == k) = false := by simp [hne]
          refine lookup_append_none _ _ _
            (hacc q (List.mem_cons_of_mem _ hq)) ?_
          simp [List.lookup, hb])
        hnodup.2
      refine ⟨curF, ?_⟩
      have hfil : acc ++ List.filter (fun p => P p.1) ((k, v) :: rest)
          = (acc ++ [(k, v)]) ++ List.filter (fun p => P p.1) rest := by
        simp [List.filter_cons, hP, List.append_assoc]
      rw [hfil]
      exact hrun

/-- Sequencing: executing a statement list steps through its head. -/
theorem execList_cons_some (s : Stmt) (rest : List Stmt) (st st' : RuntimeState)
    (h : exec s st = some st') : execList (s :: rest) st = execList rest st' := by
  simp only [execList, h]

/-- C5: running the synthesized star-export helper on a namespace object
passes the exporter exactly one object holding the namespace's
own-enumerable entries whose keys are neither `"default"` nor (when the
local-names map is supplied) own properties of that map — so local and
indirect exports shadow same-named star exports and `"default"` is never
re-exported via star. -/
theorem exportStar_helper_semantics (localKeys : List String)
    (ns : List (String × Value)) (hnodup : (ns.map Prod.fst).Nodup) :
    (∃ decl st,
      (addExportStarFunction (createUniqueName "exports") []
        (some (createUniqueName "exportedNames"))).1 = [decl] ∧
      runGeneratedHelper decl
        [(createUniqueName "exports", .vExporter),
         (createUniqueName "exportedNames",
            .vObj (localKeys.map fun s => (s, Value.vBool true)))]
        (.vObj ns) = some st ∧
      st.trace = [[Value.vObj (ns.filter fun p =>
        p.1 != "default" && !(localKeys.contains p.1))]]) ∧
    (∃ decl st,
      (addExportStarFunction (createUniqueName "exports") [] none).1 = [decl] ∧
      runGeneratedHelper decl [(createUniqueName "exports", .vExporter)]
        (.vObj ns) = some st ∧
      st.trace = [[Value.vObj (ns.filter fun p => p.1 != "default")]]) := by
  constructor
  · -- with the exclusion map
    set names : List (String × Value) :=
      localKeys.map fun s => (s, Value.vBool true) with hnames
    set closure : Env :=
      [(createUniqueName "exports", Value.vExporter),
       (createUniqueName "exportedNames", Value.vObj names)] with hclosure
    set condExpr : Expr :=
      createLogicalAnd
        (createStrictInequality (.ident "n") (.strLit "default"))
        (createLogicalNot (createHasOwnProperty
          (.ident (createUniqueName "exportedNames")) (.ident "n"))) with hcondExpr
    have hcond : ∀ (k : String) (acc : List (String × Value))
        (tr : List (List Value)),
        eval condExpr { env := ("n", .vStr k) :: ("exports", .vObj acc)
            :: ("m", .vObj ns) :: closure, trace := tr }
          = some (.vBool ((fun k => (k != "default")
                && !(localKeys.contains k)) k),
              { env := ("n", .vStr k) :: ("exports", .vObj acc)
                  :: ("m", .vObj ns) :: closure, trace := tr }) := by
      intro k acc tr
      have hstep : eval condExpr { env := ("n", .vStr k) :: ("exports", .vObj acc)
            :: ("m", .vObj ns) :: closure, trace := tr }
          = (if (k != "default") = true then
              some (.vBool !(List.lookup k names).isSome,
                { env := ("n", .vStr k) :: ("exports", .vObj acc)
                    :: ("m", .vObj ns) :: closure, trace := tr })
            else some (.vBool false,
                { env := ("n", .vStr k) :: ("exports", .vObj acc)
                    :: ("m", .vObj ns) :: closure, trace := tr })) := rfl
      rw [hstep]
      by_cases hk : k = "default"
      · subst hk
        simp
      · have hb : (k != "default") = true := by simp [hk]
        rw [hb]
        simp only [if_true, hnames, lookup_vBool_map, hb, Bool.true_and]
      -- both branches now reduced
    have hdecl : (addExportStarFunction (createUniqueName "exports") []
        (some (createUniqueName "exportedNames"))).1
        = [Stmt.functionDeclaration (createUniqueName "exportStar") ["m"]
            [Stmt.variableStatement [("exports", some (.objectLit []))],
             Stmt.forInStatement "n" (.ident "m")
               [Stmt.ifStatement condExpr
                  (.expressionStatement (.binary .assign
                    (.elementAccess (.ident "exports") (.ident "n"))
                    (.elementAccess (.ident "m") (.ident "n"))))],
             Stmt.expressionStatement (.call (.ident (createUniqueName "exports"))
               [.ident "exports"])]] := rfl
    obtain ⟨curF, hrun⟩ := execForIn_exportStar condExpr
      (fun k => (k != "default") && !(localKeys.contains k)) closure ns hcond
      ns [] Value.vUndefined []
      (fun p hp => lookup_of_mem_nodup ns hnodup p hp)
      (fun p _ => rfl)
      hnodup
    simp only [List.nil_append] at hrun
    refine ⟨_,
      { env := ("n", curF)
          :: ("exports", Value.vObj (ns.filter fun p =>
                (p.1 != "default") && !(localKeys.contains p.1)))
          :: ("m", Value.vObj ns) :: closure,
        trace := [[Value.vObj (ns.filter fun p =>
            (p.1 != "default") && !(localKeys.contains p.1))]] },
      hdecl, ?_, rfl⟩
    show execList _ { env := ("m", Value.vObj ns) :: closure, trace := [] }
        = some _
    rw [execList_cons_some _ _ _
        { env := ("exports", Value.vObj []) :: ("m", Value.vObj ns) :: closure,
          trace := [] }
        (by simp only [exec]; rfl)]
    rw [execList_cons_some _ _ _
        { env := ("n", curF)
            :: ("exports", Value.vObj (ns.filter fun p =>
                  (p.1 != "default") && !(localKeys.contains p.1)))
            :: ("m", Value.vObj ns) :: closure, trace := [] }
          (by
            simp only [exec]
            rw [show eval (.ident "m")
                { env := ("exports", Value.vObj []) :: ("m", Value.vObj ns)
                    :: closure, trace := [] }
                = some (.vObj ns,
                    { env := ("exports", Value.vObj []) :: ("m", Value.vObj ns)
                        :: closure, trace := [] }) from rfl]
            exact hrun)]
    rw [execList_cons_some _ _ _
        { env := ("n", curF)
            :: ("exports", Value.vObj (ns.filter fun p =>
                  (p.1 != "default") && !(localKeys.contains p.1)))
            :: ("m", Value.vObj ns) :: closure,
          trace := [[Value.vObj (ns.filter fun p =>
              (p.1 != "default") && !(localKeys.contains p.1))]] }
        (by simp only [exec]; rfl)]
    simp only [execList]
  · -- without the exclusion map
    set closure : Env := [(createUniqueName "exports", Value.vExporter)]
      with hclosure
    set condExpr : Expr :=
      createStrictInequality (.ident "n") (.strLit "default") with hcondExpr
    have hcond : ∀ (k : String) (acc : List (String × Value))
        (tr : List (List Value)),
        eval condExpr { env := ("n", .vStr k) :: ("exports", .vObj acc)
            :: ("m", .vObj ns) :: closure, trace := tr }
          = some (.vBool ((fun k => k != "default") k),
              { env := ("n", .vStr k) :: ("exports", .vObj acc)
                  :: ("m", .vObj ns) :: closure, trace := tr }) := fun _ _ _ => rfl
    have hdecl : (addExportStarFunction (createUniqueName "exports") [] none).1
        = [Stmt.functionDeclaration (createUniqueName "exportStar") ["m"]
            [Stmt.variableStatement [("exports", some (.objectLit []))],
             Stmt.forInStatement "n" (.ident "m")
               [Stmt.ifStatement condExpr
                  (.expressionStatement (.binary .assign
                    (.elementAccess (.ident "exports") (.ident "n"))
                    (.elementAccess (.ident "m") (.ident "n"))))],
             Stmt.expressionStatement (.call (.ident (createUniqueName "exports"))
               [.ident "exports"])]] := rfl
    obtain ⟨curF, hrun⟩ := execForIn_exportStar condExpr
      (fun k => k != "default") closure ns hcond
      ns [] Value.vUndefined []
      (fun p hp => lookup_of_mem_nodup ns hnodup p hp)
      (fun p _ => rfl)
      hnodup
    simp only [List.nil_append] at hrun
    refine ⟨_,
      { env := ("n", curF)
          :: ("exports", Value.vObj (ns.filter fun p => p.1 != "default"))
          :: ("m", Value.vObj ns) :: closure,
        trace := [[Value.vObj (ns.filter fun p => p.1 != "default")]] },
      hdecl, ?_, rfl⟩
    show execList _ { env := ("m", Value.vObj ns) :: closure, trace := [] }
        = some _
    rw [execList_cons_some _ _ _
        { env := ("exports", Value.vObj []) :: ("m", Value.vObj ns) :: closure,
          trace := [] }
        (by simp only [exec]; rfl)]
    rw [execList_cons_some _ _ _
        { env := ("n", curF)
            :: ("exports", Value.vObj (ns.filter fun p => p.1 != "default"))
            :: ("m", Value.vObj ns) :: closure, trace := [] }
        (by
          simp only [exec]
          rw [show eval (.ident "m")
              { env := ("exports", Value.vObj []) :: ("m", Value.vObj ns)
                  :: closure, trace := [] }
              = some (.vObj ns,
                  { env := ("exports", Value.vObj []) :: ("m", Value.vObj ns)
                      :: closure, trace := [] }) from rfl]
          exact hrun)]
    rw [execList_cons_some _ _ _
        { env := ("n", curF)
            :: ("exports", Value.vObj (ns.filter fun p => p.1 != "default"))
            :: ("m", Value.vObj ns) :: closure,
          trace := [[Value.vObj (ns.filter fun p => p.1 != "default")]] }
        (by simp only [exec]; rfl)]
    simp only [execList]

/-- C5 witness: a concrete namespace `{a, default, b}` with local map
`{a: true}` — only `b` is copied; without a map, `a` and `b` are copied. -/
theorem exportStar_helper_semantics_witness :
    (∃ decl st,
      (addExportStarFunction (createUniqueName "exports") []
        (some (createUniqueName "exportedNames"))).1 = [decl] ∧
      runGeneratedHelper decl
        [(createUniqueName "exports", .vExporter),
         (createUniqueName "exportedNames",
            .vObj (["a"].map fun s => (s, Value.vBool true)))]
        (.vObj [("a", .vInt 1), ("default", .vInt 2), ("b", .vInt 3)]) = some st ∧
      st.trace = [[Value.vObj ([("a", Value.vInt 1), ("default", Value.vInt 2),
          ("b", Value.vInt 3)].filter fun p =>
        p.1 != "default" && !(["a"].contains p.1))]]) ∧
    (∃ decl st,
      (addExportStarFunction (createUniqueName "exports") [] none).1 = [decl] ∧
      runGeneratedHelper decl [(createUniqueName "exports", .vExporter)]
        (.vObj [("a", .vInt 1), ("default", .vInt 2), ("b", .vInt 3)]) = some st ∧
      st.trace = [[Value.vObj ([("a", Value.vInt 1), ("default", Value.vInt 2),
          ("b", Value.vInt 3)].filter fun p => p.1 != "default")]]) :=
  exportStar_helper_semantics ["a"]
    [("a", .vInt 1), ("default", .vInt 2), ("b", .vInt 3)] (by simp)

/-- C1: a postfix update of an identifier bound to an exported name is
rewritten to `exports("x", ++x) - 1` (resp. `exports("x", --x) + 1`), and
running the lowered `y = x++` (resp. `y = x--`) from `x = v` leaves `y`
bound to the original value `v`, updates `x` to `v + 1` (resp. `v - 1`),
and makes the exporter observe exactly the updated value — for `v = 5`
the exporter sees `6` (resp. `4`) while `y` ends at `5`. -/
theorem substitutePostfix_rewrite_and_semantics (resolver : Resolver) (v : Int)
    (hexp : (resolver.getReferencedExportContainer "x").isSome = true) :
    substitutePostfixUnaryExpression resolver "exports_1"
        (.postfixUnary (.ident "x") .plusPlus)
      = createSubtract (.call (.ident "exports_1")
          [.strLit "x", .prefixUnary .plusPlus (.ident "x")]) (.numLit 1) ∧
    substitutePostfixUnaryExpression resolver "exports_1"
        (.postfixUnary (.ident "x") .minusMinus)
      = createAdd (.call (.ident "exports_1")
          [.strLit "x", .prefixUnary .minusMinus (.ident "x")]) (.numLit 1) ∧
    eval (createAssignment (.ident "y")
        (substitutePostfixUnaryExpression resolver "exports_1"
          (.postfixUnary (.ident "x") .plusPlus)))
        { env := [("y", .vInt 0), ("x", .vInt v), ("exports_1", .vExporter)],
          trace := [] }
      = some (.vInt v,
          { env := [("y", .vInt v), ("x", .vInt (v + 1)), ("exports_1", .vExporter)],
            trace := [[.vStr "x", .vInt (v + 1)]] }) ∧
    eval (createAssignment (.ident "y")
        (substitutePostfixUnaryExpression resolver "exports_1"
          (.postfixUnary (.ident "x") .minusMinus)))
        { env := [("y", .vInt 0), ("x", .vInt v), ("exports_1", .vExporter)],
          trace := [] }
      = some (.vInt v,
          { env := [("y", .vInt v), ("x", .vInt (v - 1)), ("exports_1", .vExporter)],
            trace := [[.vStr "x", .vInt (v - 1)]] }) := by
  rcases Option.isSome_iff_exists.mp hexp with ⟨c, hc⟩
  have hplus : substitutePostfixUnaryExpression resolver "exports_1"
        (.postfixUnary (.ident "x") .plusPlus)
      = createSubtract (.call (.ident "exports_1")
          [.strLit "x", .prefixUnary .plusPlus (.ident "x")]) (.numLit 1) := by
    simp [substitutePostfixUnaryExpression, hc, createExportExpression]
  have hminus : substitutePostfixUnaryExpression resolver "exports_1"
        (.postfixUnary (.ident "x") .minusMinus)
      = createAdd (.call (.ident "exports_1")
          [.strLit "x", .prefixUnary .minusMinus (.ident "x")]) (.numLit 1) := by
    simp [substitutePostfixUnaryExpression, hc, createExportExpression]
  refine ⟨hplus, hminus, ?_, ?_⟩
  · rw [hplus]
    have h1 : eval (createAssignment (.ident "y")
          (createSubtract (.call (.ident "exports_1")
            [.strLit "x", .prefixUnary .plusPlus (.ident "x")]) (.numLit 1)))
          { env := [("y", .vInt 0), ("x", .vInt v), ("exports_1", .vExporter)],
            trace := [] }
        = some (.vInt (v + 1 - 1),
            { env := [("y", .vInt (v + 1 - 1)), ("x", .vInt (v + 1)),
                ("exports_1", .vExporter)],
              trace := [[.vStr "x", .vInt (v + 1)]] }) := rfl
    rw [h1]
    norm_num
  · rw [hminus]
    have h1 : eval (createAssignment (.ident "y")
          (createAdd (.call (.ident "exports_1")
            [.strLit "x", .prefixUnary .minusMinus (.ident "x")]) (.numLit 1)))
          { env := [("y", .vInt 0), ("x", .vInt v), ("exports_1", .vExporter)],
            trace := [] }
        = some (.vInt (v - 1 + 1),
            { env := [("y", .vInt (v - 1 + 1)), ("x", .vInt (v - 1)),
                ("exports_1", .vExporter)],
              trace := [[.vStr "x", .vInt (v - 1)]] }) := rfl
    rw [h1]
    norm_num

/-- C1 witness: at `v = 5` the exporter observes `6` for `x++` (resp. `4`
for `x--`) while `y` ends at `5`. -/
theorem substitutePostfix_rewrite_and_semantics_witness :
    eval (createAssignment (.ident "y")
        (substitutePostfixUnaryExpression valueResolver "exports_1"
          (.postfixUnary (.ident "x") .plusPlus)))
        { env := [("y", .vInt 0), ("x", .vInt 5), ("exports_1", .vExporter)],
          trace := [] }
      = some (.vInt 5,
          { env := [("y", .vInt 5), ("x", .vInt 6), ("exports_1", .vExporter)],
            trace := [[.vStr "x", .vInt 6]] }) ∧
    eval (createAssignment (.ident "y")
        (substitutePostfixUnaryExpression valueResolver "exports_1"
          (.postfixUnary (.ident "x") .minusMinus)))
        { env := [("y", .vInt 0), ("x", .vInt 5), ("exports_1", .vExporter)],
          trace := [] }
      = some (.vInt 5,
          { env := [("y", .vInt 5), ("x", .vInt 4), ("exports_1", .vExporter)],
            trace := [[.vStr "x", .vInt 4]] }) := by
  have h := substitutePostfix_rewrite_and_semantics valueResolver 5 rfl
  refine ⟨?_, ?_⟩
  · have := h.2.2.1
    norm_num at this
    exact this
  · have := h.2.2.2
    norm_num at this
    exact this

/-- Appending an entry to an existing group leaves the group names
unchanged. -/
theorem addToGroup_map_name (t : String) (e : ExternalEntry)
    (gs : List DependencyGroup) :
    (addToGroup t e gs).map DependencyGroup.name
      = gs.map DependencyGroup.name := by
  induction gs with
  | nil => rfl
  | cons g gs ih =>
    simp only [addToGroup]
    by_cases h : g.name = t
    · simp [h]
    · simp [h, ih]

/-- Appending an entry whose resolved text already names a group preserves
the filter characterisation of every group's entry list. -/
theorem addToGroup_filter (renamed : List (String × String)) (t : String)
    (e : ExternalEntry) (he : getExternalModuleNameLiteral renamed e = t)
    (done : List ExternalEntry) (gs : List DependencyGroup)
    (hnodup : (gs.map DependencyGroup.name).Nodup)
    (hinv : ∀ g ∈ gs, g.externalImports
      = done.filter fun x => getExternalModuleNameLiteral renamed x == g.name) :
    ∀ g' ∈ addToGroup t e gs,
      g'.externalImports
        = (done ++ [e]).filter fun x =>
            getExternalModuleNameLiteral renamed x == g'.name := by
  induction gs with
  | nil => intro g' hg'; simp [addToGroup] at hg'
  | cons g gs ih =>
    intro g' hg'
    simp only [addToGroup] at hg'
    rw [List.map_cons, List.nodup_cons] at hnodup
    by_cases h : g.name = t
    · rw [if_pos h] at hg'
      rcases List.mem_cons.mp hg' with hEq | hMem
      · subst hEq
        have hg := hinv g (List.mem_cons_self _ _)
        simp only [List.filter_append, hg]
        simp [he, h]
      · have hginv := hinv g' (List.mem_cons_of_mem _ hMem)
        have hne : g'.name ≠ t := by
          intro hEq
          exact hnodup.1 (h ▸ hEq ▸ List.mem_map_of_mem DependencyGroup.name hMem)
        simp only [List.filter_append, hginv]
        simp [he, hne]
        exact fun hEq => hne hEq.symm
    · rw [if_neg h] at hg'
      rcases List.mem_cons.mp hg' with hEq | hMem
      · subst hEq
        have hg' := hinv g' (List.mem_cons_self _ _)
        simp only [List.filter_append, hg']
        simp [he, h]
        exact fun hEq => h hEq.symm
      · exact ih hnodup.2 (fun g hg => hinv g (List.mem_cons_of_mem _ hg)) g' hMem

/-- Membership in the first-occurrence accumulator. -/
theorem mem_firstOccurrencesAux (x : String) (l : List String) :
    ∀ acc : List String, x ∈ firstOccurrencesAux l acc ↔ x ∈ l ∨ x ∈ acc := by
  induction l with
  | nil => intro acc; simp [firstOccurrencesAux]
  | cons t ts ih =>
    intro acc
    simp only [firstOccurrencesAux]
    by_cases h : t ∈ acc
    · rw [if_pos h, ih]
      constructor
      · rintro (hx | hx)
        · exact Or.inl (List.mem_cons_of_mem _ hx)
        · exact Or.inr hx
      · rintro (hx | hx)
        · rcases List.mem_cons.mp hx with hEq | hx
          · exact Or.inr (hEq ▸ h)
          · exact Or.inl hx
        · exact Or.inr hx
    · rw [if_neg h, ih]
      simp only [List.mem_append, List.mem_cons, List.mem_singleton]
      tauto

/-- The full loop invariant of the dependency grouper: starting from a
well-formed accumulator, the result's group names are duplicate-free and in
first-occurrence order, and each group's entries are exactly the processed
entries resolving to the group's name, in source order. -/
theorem collectDependencyGroupsAux_spec (renamed : List (String × String))
    (es : List ExternalEntry) :
    ∀ (done : List ExternalEntry) (groups : List DependencyGroup),
      (groups.map DependencyGroup.name).Nodup →
      (∀ g ∈ groups, g.externalImports
        = done.filter fun x =>
            getExternalModuleNameLiteral renamed x == g.name) →
      (∀ x ∈ done, getExternalModuleNameLiteral renamed x
        ∈ groups.map DependencyGroup.name) →
      ((collectDependencyGroupsAux renamed es groups).map
          DependencyGroup.name).Nodup ∧
      (collectDependencyGroupsAux renamed es groups).map DependencyGroup.name
        = firstOccurrencesAux (es.map (getExternalModuleNameLiteral renamed))
            (groups.map DependencyGroup.name) ∧
      (∀ g ∈ collectDependencyGroupsAux renamed es groups,
        g.externalImports
          = (done ++ es).filter fun x =>
              getExternalModuleNameLiteral renamed x == g.name) := by
  induction es with
  | nil =>
    intro done groups hnodup hfilter _
    simpa [collectDependencyGroupsAux, firstOccurrencesAux] using
      ⟨hnodup, hfilter⟩
  | cons e rest ih =>
    intro done groups hnodup hfilter hcover
    simp only [collectDependencyGroupsAux]
    by_cases hmem : getExternalModuleNameLiteral renamed e
        ∈ groups.map DependencyGroup.name
    · rw [if_pos hmem]
      have hres := ih (done ++ [e]) (addToGroup
          (getExternalModuleNameLiteral renamed e) e groups)
        (by rw [addToGroup_map_name]; exact hnodup)
        (addToGroup_filter renamed _ e rfl done groups hnodup hfilter)
        (by
          intro x hx
          rw [addToGroup_map_name]
          rcases List.mem_append.mp hx with hx | hx
          · exact hcover x hx
          · rw [List.mem_singleton.mp hx]; exact hmem)
      refine ⟨hres.1, ?_, ?_⟩
      · rw [hres.2.1, addToGroup_map_name]
        simp [firstOccurrencesAux, hmem]
      · intro g hg
        have := hres.2.2 g hg
        simpa [List.append_assoc] using this
    · rw [if_neg hmem]
      have hres := ih (done ++ [e])
        (groups ++ [{ name := getExternalModuleNameLiteral renamed e,
                      externalImports := [e] }])
        (by
          simp only [List.map_append, List.map_cons, List.map_nil]
          rw [List.nodup_append]
          refine ⟨hnodup, List.nodup_singleton _, ?_⟩
          intro a ha hb
          rw [List.mem_singleton.mp hb] at ha
          exact hmem ha)
        (by
          intro g hg
          rcases List.mem_append.mp hg with hg | hg
          · have hge := hfilter g hg
            have hne : getExternalModuleNameLiteral renamed e ≠ g.name := by
              intro hEq
              exact hmem (hEq ▸ List.mem_map_of_mem DependencyGroup.name hg)
            simp only [List.filter_append, hge]
            simp [hne]
          · rw [List.mem_singleton.mp hg]
            simp only [List.filter_append]
            have hdone : done.filter (fun x =>
                getExternalModuleNameLiteral renamed x
                  == getExternalModuleNameLiteral renamed e) = [] := by
              rw [List.filter_eq_nil_iff]
              intro x hx
              simp only [beq_iff_eq]
              intro hEq
              exact hmem (hEq ▸ hcover x hx)
            simp [hdone])
        (by
          intro x hx
          simp only [List.map_append, List.map_cons, List.map_nil,
            List.mem_append, List.mem_singleton]
          rcases List.mem_append.mp hx with hx | hx
          · exact Or.inl (hcover x hx)
          · rw [List.mem_singleton.mp hx]; exact Or.inr rfl)
      refine ⟨hres.1, ?_, ?_⟩
      · rw [hres.2.1]
        simp [firstOccurrencesAux, hmem]
      · intro g hg
        have := hres.2.2 g hg
        simpa [List.append_assoc] using this

/-- C6: the dependency grouper produces groups whose specifier texts are
duplicate-free, appearing in first-occurrence order of the (possibly
renamed) specifier text; each group's entry list is exactly the input
entries resolving to that text, in source order; and every input entry
belongs to exactly one group. -/
theorem collectDependencyGroups_invariants (renamed : List (String × String))
    (es : List ExternalEntry) :
    ((collectDependencyGroups renamed es).map DependencyGroup.name).Nodup ∧
    (collectDependencyGroups renamed es).map DependencyGroup.name
      = firstOccurrences (es.map (getExternalModuleNameLiteral renamed)) ∧
    (∀ g ∈ collectDependencyGroups renamed es,
      g.externalImports = es.filter fun x =>
        getExternalModuleNameLiteral renamed x == g.name) ∧
    (∀ e ∈ es, ∃ g, g ∈ collectDependencyGroups renamed es ∧
      e ∈ g.externalImports ∧
      ∀ g', g' ∈ collectDependencyGroups renamed es →
        e ∈ g'.externalImports → g' = g) := by
  have hres := collectDependencyGroupsAux_spec renamed es [] []
    (by simp) (by simp) (by simp)
  simp only [List.nil_append, List.map_nil] at hres
  have hnodupG : ((collectDependencyGroups renamed es).map
      DependencyGroup.name).Nodup := hres.1
  have hnamesG : (collectDependencyGroups renamed es).map DependencyGroup.name
      = firstOccurrences (es.map (getExternalModuleNameLiteral renamed)) :=
    hres.2.1
  have hfilterG : ∀ g ∈ collectDependencyGroups renamed es,
      g.externalImports = es.filter fun x =>
        getExternalModuleNameLiteral renamed x == g.name := hres.2.2
  refine ⟨hnodupG, hnamesG, hfilterG, ?_⟩
  intro e he
  have htmem : getExternalModuleNameLiteral renamed e
      ∈ (collectDependencyGroups renamed es).map DependencyGroup.name := by
    rw [hnamesG]
    exact (mem_firstOccurrencesAux _ _ _).mpr
      (Or.inl (List.mem_map_of_mem _ he))
  rcases List.mem_map.mp htmem with ⟨g, hg, hgname⟩
  refine ⟨g, hg, ?_, ?_⟩
  · rw [hfilterG g hg, List.mem_filter]
    exact ⟨he, by simp [hgname]⟩
  · intro g' hg' hmem'
    rw [hfilterG g' hg', List.mem_filter] at hmem'
    have hname' : g'.name = g.name := by
      have := hmem'.2
      rw [beq_iff_eq] at this
      rw [← this, hgname]
    exact List.inj_on_of_nodup_map hnodupG hg' hg hname'

/-- Both branches of `addExportStarIfNeeded` name the helper with the same
generated unique name. -/
theorem addExportStarIfNeeded_star_name (exportFn : String)
    (names : Option (List String))
    (specifiers : List (String × List ExportSpecifierNode))
    (extImports : List ExternalEntry) (statements : List Stmt) :
    (addExportStarIfNeeded exportFn names specifiers extImports statements).2
      = createUniqueName "exportStar" := by
  unfold addExportStarIfNeeded
  split <;> rfl

/-- C7: the transformed file is a single `System.register(...)` call whose
module-name literal is present exactly when the source file carries an
explicit module name, whose dependency array lists one string per dependency
group in group order, and whose returned object's `setters` array holds
exactly one setter per dependency group, in the same order. -/
theorem register_call_shape (resolver : Resolver) (node : SourceFile)
    (st : TransformState) (hclear : st.exportFunctionForFile = none) :
    ∃ out st' bodyPre executeBody,
      transformSystemModuleWorker resolver node st = some (out, st') ∧
      out.statements = [SourceStmt.statement (.expressionStatement
        (.call (.propertyAccess (.ident "System") "register")
          ((match node.moduleName with
            | some moduleName => [Expr.strLit moduleName]
            | none => []) ++
           [Expr.arrayLit ((collectDependencyGroups node.renamedDependencies
              (collectExternalModuleInfo node).externalImports).map
                fun g => Expr.strLit g.name),
            Expr.functionExpr [createUniqueName "exports", createUniqueName "context"]
              (bodyPre ++ [Stmt.returnStatement (.objectLit
                [("setters", .arrayLit
                   ((collectDependencyGroups node.renamedDependencies
                      (collectExternalModuleInfo node).externalImports).map
                     (generateSetter (createUniqueName "exports")
                       (createUniqueName "exportStar")))),
                 ("execute", .functionExpr [] executeBody)])])])))] ∧
      ((collectDependencyGroups node.renamedDependencies
          (collectExternalModuleInfo node).externalImports).map
        (generateSetter (createUniqueName "exports")
          (createUniqueName "exportStar"))).length
        = (collectDependencyGroups node.renamedDependencies
            (collectExternalModuleInfo node).externalImports).length ∧
      ∀ (i : Nat), ((collectDependencyGroups node.renamedDependencies
          (collectExternalModuleInfo node).externalImports).map
        (generateSetter (createUniqueName "exports")
          (createUniqueName "exportStar")))[i]?
        = ((collectDependencyGroups node.renamedDependencies
            (collectExternalModuleInfo node).externalImports)[i]?).map
          (generateSetter (createUniqueName "exports")
            (createUniqueName "exportStar")) := by
  have hA : st.exportFunctionForFile.isSome = false := by simp [hclear]
  simp only [transformSystemModuleWorker, hA, Bool.false_eq_true, if_false,
    generateSetters, addExportStarIfNeeded_star_name]
  refine ⟨_, _, _, _, rfl, rfl, ?_, ?_⟩
  · simp
  · intro i
    simp

/-- C7 witness: the register-call shape on a concrete file carrying three
entries over two distinct specifiers and an explicit module name. -/
theorem register_call_shape_witness :
    ∃ out st' bodyPre executeBody,
      transformSystemModuleWorker valueResolver sampleImportFile {} = some (out, st') ∧
      out.statements = [SourceStmt.statement (.expressionStatement
        (.call (.propertyAccess (.ident "System") "register")
          ((match sampleImportFile.moduleName with
            | some moduleName => [Expr.strLit moduleName]
            | none => []) ++
           [Expr.arrayLit ((collectDependencyGroups sampleImportFile.renamedDependencies
              (collectExternalModuleInfo sampleImportFile).externalImports).map
                fun g => Expr.strLit g.name),
            Expr.functionExpr [createUniqueName "exports", createUniqueName "context"]
              (bodyPre ++ [Stmt.returnStatement (.objectLit
                [("setters", .arrayLit
                   ((collectDependencyGroups sampleImportFile.renamedDependencies
                      (collectExternalModuleInfo sampleImportFile).externalImports).map
                     (generateSetter (createUniqueName "exports")
                       (createUniqueName "exportStar")))),
                 ("execute", .functionExpr [] executeBody)])])])))] ∧
      ((collectDependencyGroups sampleImportFile.renamedDependencies
          (collectExternalModuleInfo sampleImportFile).externalImports).map
        (generateSetter (createUniqueName "exports")
          (createUniqueName "exportStar"))).length
        = (collectDependencyGroups sampleImportFile.renamedDependencies
            (collectExternalModuleInfo sampleImportFile).externalImports).length ∧
      ∀ (i : Nat), ((collectDependencyGroups sampleImportFile.renamedDependencies
          (collectExternalModuleInfo sampleImportFile).externalImports).map
        (generateSetter (createUniqueName "exports")
          (createUniqueName "exportStar")))[i]?
        = ((collectDependencyGroups sampleImportFile.renamedDependencies
            (collectExternalModuleInfo sampleImportFile).externalImports)[i]?).map
          (generateSetter (createUniqueName "exports")
            (createUniqueName "exportStar")) :=
  register_call_shape valueResolver sampleImportFile {} rfl

/-- C8 witness: the cleared-state result on the empty module file with a
fresh state, and the assertion failure when the exporter identifier from a
previous file was never cleared. -/
theorem transformSourceFile_state_lifecycle_witness :
    (∃ out, transformSourceFile valueResolver false {} emptyModuleFile
      = some (out, clearedState)) ∧
    transformSourceFile valueResolver false
      { exportFunctionForFile := some "exports_1" } emptyModuleFile = none :=
  ⟨(transformSourceFile_state_lifecycle valueResolver false {} emptyModuleFile).1
      rfl rfl,
   (transformSourceFile_state_lifecycle valueResolver false
      { exportFunctionForFile := some "exports_1" } emptyModuleFile).2 rfl rfl⟩

end SystemModule
